import Mathlib

/-!
Verification development for the image tiler (`src/image_tiler.py`).

The Python program plans a tiling layout (`calculate_sheet_counts`), crops the
resized canvas into tiles (`crop_tiles`), and emits one PDF page per tile
(`save_tiles_to_pdf`, driven by `main`).

Modelling conventions:
* Python integers are `ℤ`; Python float arithmetic on the quantities involved
  is modelled by exact rational arithmetic over `ℚ` (every claim is evaluated
  at inputs where the two agree).
* `int(x)` applied to a float is truncation toward zero, modelled by `pytrunc`.
* `math.ceil` on a float quotient is modelled by `Int.ceil` of the exact
  rational quotient.
* Python truthiness of the grid hints (which may be `None` or an `int`) is
  modelled by `truthy : Option ℤ → Bool` (`None` and `0` are falsy).
* A raised Python exception is modelled by `Except.error`: the
  `ValueError` raised when both hints are falsy is the specification's
  `ConfigurationError` (`Err.configuration`), and a Python
  `ZeroDivisionError` is `Err.zeroDivision`.
* `PIL.Image.crop` is modelled at the level of pixel dimensions, following
  Pillow's documented semantics: the result of cropping to a box always has
  exactly the box's size; any part of the box outside the source image is
  filled with blank pixels (the box is NOT clamped to the image bounds).
* Image decoding, resizing and PDF authoring are external collaborators.
  Resizing is modelled after Pillow's actual behavior: it yields an image of
  exactly the requested dimensions when both are at least 1, and raises
  `ValueError("height and width must be > 0")` when a target dimension is
  below 1 (Pillow's resample size check).  The emitter writes exactly one
  page per tile.  `mainModel` records the order of the observable side
  effects as an event trace.
-/

namespace ImageTiler

/-- Errors raised by the run. `configuration` models the
`ValueError("Set at least one of NUM_SHEETS_WIDE or NUM_SHEETS_HIGH")`
raised in `calculate_sheet_counts`, which the specification calls
`ConfigurationError`; `zeroDivision` models a Python `ZeroDivisionError`;
`valueError` models the `ValueError("height and width must be > 0")`
raised by Pillow's `resize` when a planned canvas dimension is below 1. -/
inductive Err where
  | configuration : Err
  | zeroDivision : Err
  | valueError : Err
  deriving DecidableEq, Repr

/-- The layout plan returned by `calculate_sheet_counts`:
`(sheets_w, sheets_h, full_w_px, full_h_px)`. -/
structure LayoutPlan where
  sheetsWide : ℤ
  sheetsHigh : ℤ
  fullW : ℤ
  fullH : ℤ
  deriving DecidableEq, Repr

/-- Python truthiness of a grid hint: `None` and `0` are falsy, every other
integer is truthy. -/
def truthy : Option ℤ → Bool
  | none => false
  | some n => n != 0

/-- Python `int()` applied to a real number: truncation toward zero. -/
def pytrunc (q : ℚ) : ℤ := if 0 ≤ q then ⌊q⌋ else ⌈q⌉

/-- Model of `calculate_sheet_counts(img_w, img_h, tile_w_px, tile_h_px)` from
`src/image_tiler.py` (lines 34-57), with the module-level globals
`NUM_SHEETS_WIDE` / `NUM_SHEETS_HIGH` passed explicitly.  The three Python
`if` branches are tested in source order; division by zero raises. -/
def calculate_sheet_counts (img_w img_h tile_w tile_h : ℤ)
    (numSheetsWide numSheetsHigh : Option ℤ) : Except Err LayoutPlan :=
  if truthy numSheetsWide && !truthy numSheetsHigh then
    let n := numSheetsWide.getD 0
    let full_w := tile_w * n
    if img_w = 0 then .error .zeroDivision
    else
      let full_h := pytrunc ((img_h : ℚ) / (img_w : ℚ) * (full_w : ℚ))
      if tile_h = 0 then .error .zeroDivision
      else .ok ⟨n, ⌈(full_h : ℚ) / (tile_h : ℚ)⌉, full_w, full_h⟩
  else if truthy numSheetsHigh && !truthy numSheetsWide then
    let m := numSheetsHigh.getD 0
    let full_h := tile_h * m
    if img_h = 0 then .error .zeroDivision
    else
      let full_w := pytrunc ((img_w : ℚ) / (img_h : ℚ) * (full_h : ℚ))
      if tile_w = 0 then .error .zeroDivision
      else .ok ⟨⌈(full_w : ℚ) / (tile_w : ℚ)⌉, m, full_w, full_h⟩
  else if truthy numSheetsWide && truthy numSheetsHigh then
    .ok ⟨numSheetsWide.getD 0, numSheetsHigh.getD 0,
         tile_w * numSheetsWide.getD 0, tile_h * numSheetsHigh.getD 0⟩
  else .error .configuration

/-- A PIL crop box `(left, upper, right, lower)`. -/
structure Box where
  left : ℤ
  upper : ℤ
  right : ℤ
  lower : ℤ
  deriving DecidableEq, Repr

/-- The crop box built for grid position `(row, col)` in `crop_tiles`
(lines 67-70 of the source). -/
def tileBox (tile_w tile_h : ℤ) (row col : ℕ) : Box :=
  ⟨(col : ℤ) * tile_w, (row : ℤ) * tile_h,
   (col : ℤ) * tile_w + tile_w, (row : ℤ) * tile_h + tile_h⟩

/-- Width of the raster produced by `PIL.Image.crop` on a box: per Pillow's
documented semantics the result has exactly the box's width (out-of-bounds
regions are filled with blank pixels, never clamped away). -/
def cropWidth (b : Box) : ℤ := b.right - b.left

/-- Height of the raster produced by `PIL.Image.crop` on a box (see
`cropWidth`). -/
def cropHeight (b : Box) : ℤ := b.lower - b.upper

/-- Model of `crop_tiles(image, sheets_w, sheets_h, tile_w_px, tile_h_px)`
(lines 59-73): the list of crop boxes requested, in loop order
(`for row in range(sheets_h): for col in range(sheets_w)`).  A Python
`range` over a non-positive bound is empty, hence `Int.toNat`. -/
def crop_tiles (sheets_w sheets_h tile_w tile_h : ℤ) : List Box :=
  (List.range sheets_h.toNat).flatMap fun row =>
    (List.range sheets_w.toNat).map fun col => tileBox tile_w tile_h row col

/-- The row-major enumeration of grid positions: row 0 col 0, row 0 col 1,
…, row 0 col (cols-1), row 1 col 0, … -/
def rowMajorPairs (rows cols : ℕ) : List (ℕ × ℕ) :=
  (List.range rows).flatMap fun r => (List.range cols).map fun c => (r, c)

/-- Tile pixel dimensions as derived in `main` (lines 111-112):
`int((PAGE_SIZE_IN[i] - 2*MARGIN_IN) * DPI)`. -/
def tileDims (page_w page_h margin : ℚ) (dpi : ℤ) : ℤ × ℤ :=
  (pytrunc ((page_w - 2 * margin) * (dpi : ℚ)),
   pytrunc ((page_h - 2 * margin) * (dpi : ℚ)))

/-- Model of `save_tiles_to_pdf` (lines 75-103): the loop calls
`pdf.showPage()` once per tile, so the emitted document has exactly one page
per tile. -/
def save_tiles_to_pdf (tiles : List Box) : ℕ := tiles.length

instance : DecidableEq (Except Err ℕ) := fun a b =>
  match a, b with
  | .error a, .error b => decidable_of_iff (a = b) (by simp)
  | .error _, .ok _ => .isFalse (by simp)
  | .ok _, .error _ => .isFalse (by simp)
  | .ok a, .ok b => decidable_of_iff (a = b) (by simp)

/-- Observable side effects of the run, in order. -/
inductive Event where
  | imageOpen : Event
  | imageResize : Event
  | pageEmit : Event
  deriving DecidableEq, Repr

/-- Outcome of a run of `main`: the ordered event trace, and either the
raised error or the number of pages written. -/
structure RunResult where
  events : List Event
  outcome : Except Err ℕ
  deriving DecidableEq, Repr

/-- Model of `main` (lines 105-127).  The source image is opened first
(line 107, `Image.open`), then the tile dimensions are computed, then
`calculate_sheet_counts` runs; on success `img.resize((full_w, full_h),
LANCZOS)` is attempted, which raises `ValueError` when either planned
dimension is below 1 (Pillow's resample size check); when the resize
succeeds the tiles are cropped and one page is emitted per tile. -/
def mainModel (img_w img_h : ℤ) (page_w page_h margin : ℚ) (dpi : ℤ)
    (numSheetsWide numSheetsHigh : Option ℤ) : RunResult :=
  let td := tileDims page_w page_h margin dpi
  match calculate_sheet_counts img_w img_h td.1 td.2 numSheetsWide numSheetsHigh with
  | .error e => ⟨[Event.imageOpen], .error e⟩
  | .ok p =>
      if p.fullW ≤ 0 ∨ p.fullH ≤ 0 then ⟨[Event.imageOpen], .error .valueError⟩
      else
        let tiles := crop_tiles p.sheetsWide p.sheetsHigh td.1 td.2
        ⟨Event.imageOpen :: Event.imageResize :: tiles.map (fun _ => Event.pageEmit),
         .ok (save_tiles_to_pdf tiles)⟩

/-! ## Helper lemmas -/

lemma pytrunc_of_nonneg {q : ℚ} (h : 0 ≤ q) : pytrunc q = ⌊q⌋ := if_pos h

lemma pytrunc_eq {q : ℚ} {z : ℤ} (h1 : (z : ℚ) ≤ q) (h2 : q < z + 1) (hz : 0 ≤ z) :
    pytrunc q = z := by
  have h0 : (0 : ℚ) ≤ q := le_trans (by exact_mod_cast hz) h1
  rw [pytrunc_of_nonneg h0]
  exact Int.floor_eq_iff.mpr ⟨h1, h2⟩

lemma ceil_eval {q : ℚ} {z : ℤ} (h1 : (z : ℚ) - 1 < q) (h2 : q ≤ z) : ⌈q⌉ = z :=
  Int.ceil_eq_iff.mpr ⟨h1, h2⟩

lemma pytrunc_nonneg {q : ℚ} (h : 0 ≤ q) : 0 ≤ pytrunc q := by
  rw [pytrunc_of_nonneg h]
  exact Int.floor_nonneg.mpr h

/-- Closed form of the width-hint-only branch of `calculate_sheet_counts`. -/
lemma calc_width (img_w img_h t_w t_h n fh sh : ℤ) (hn : n ≠ 0) (hw : img_w ≠ 0)
    (hh : t_h ≠ 0)
    (hfh : pytrunc ((img_h : ℚ) / (img_w : ℚ) * ((t_w : ℚ) * (n : ℚ))) = fh)
    (hsh : ⌈(fh : ℚ) / (t_h : ℚ)⌉ = sh) :
    calculate_sheet_counts img_w img_h t_w t_h (some n) none = .ok ⟨n, sh, t_w * n, fh⟩ := by
  simp [calculate_sheet_counts, truthy, hn, hw, hh]
  constructor
  · rw [hfh]; exact hsh
  · exact hfh

/-- Closed form of the both-hints branch of `calculate_sheet_counts`. -/
lemma calc_both (img_w img_h t_w t_h n m : ℤ) (hn : n ≠ 0) (hm : m ≠ 0) :
    calculate_sheet_counts img_w img_h t_w t_h (some n) (some m) =
      .ok ⟨n, m, t_w * n, t_h * m⟩ := by
  simp [calculate_sheet_counts, truthy, hn, hm]

/-- With both hints falsy, `calculate_sheet_counts` raises the
configuration error. -/
lemma calc_neither (img_w img_h t_w t_h : ℤ) (w h : Option ℤ)
    (hw : truthy w = false) (hh : truthy h = false) :
    calculate_sheet_counts img_w img_h t_w t_h w h = .error .configuration := by
  simp [calculate_sheet_counts, hw, hh]

lemma le_ceil_mul (a b : ℤ) (hb : 0 < b) : a ≤ ⌈(a : ℚ) / (b : ℚ)⌉ * b := by
  have hb' : (0 : ℚ) < (b : ℚ) := by exact_mod_cast hb
  have h := Int.le_ceil ((a : ℚ) / (b : ℚ))
  have h2 : (a : ℚ) ≤ (⌈(a : ℚ) / (b : ℚ)⌉ : ℚ) * (b : ℚ) := (div_le_iff₀ hb').mp h
  exact_mod_cast h2

lemma ceil_le_of_le_mul (a b k : ℤ) (hb : 0 < b) (h : a ≤ k * b) :
    ⌈(a : ℚ) / (b : ℚ)⌉ ≤ k := by
  have hb' : (0 : ℚ) < (b : ℚ) := by exact_mod_cast hb
  have h2 : (a : ℚ) / (b : ℚ) ≤ (k : ℚ) := (div_le_iff₀ hb').mpr (by exact_mod_cast h)
  exact Int.ceil_le.mpr h2

/-- Floor of an exact rational quotient of integers is integer division. -/
lemma floor_int_div (m n : ℤ) (hn : 0 < n) : ⌊(m : ℚ) / (n : ℚ)⌋ = m / n := by
  obtain ⟨d, rfl⟩ : ∃ d : ℕ, n = (d : ℤ) := ⟨n.toNat, (Int.toNat_of_nonneg hn.le).symm⟩
  exact_mod_cast Rat.floor_intCast_div_natCast m d

/-- On non-negative data the truncated aspect-derived dimension is the
floor of the exact rational value, which is integer division. -/
lemma pytrunc_div_mul_eq_ediv (a b c : ℤ) (hb : 0 < b) (ha : 0 ≤ a) (hc : 0 ≤ c) :
    pytrunc ((a : ℚ) / (b : ℚ) * (c : ℚ)) = (a * c) / b := by
  have hb' : (0 : ℚ) < (b : ℚ) := by exact_mod_cast hb
  have hq : (0 : ℚ) ≤ (a : ℚ) / (b : ℚ) * (c : ℚ) := by
    apply mul_nonneg (div_nonneg (by exact_mod_cast ha) hb'.le) (by exact_mod_cast hc)
  rw [pytrunc_of_nonneg hq]
  have hrw : (a : ℚ) / (b : ℚ) * (c : ℚ) = ((a * c : ℤ) : ℚ) / ((b : ℤ) : ℚ) := by
    push_cast
    ring
  rw [hrw, floor_int_div _ _ hb]

/-- The concrete plan of the specification's scenario: source 3000×2000,
tile 2550×3300, two sheets wide, height unset. -/
lemma plan_3000_2000 :
    calculate_sheet_counts 3000 2000 2550 3300 (some 2) none = .ok ⟨2, 2, 5100, 3400⟩ := by
  have h := calc_width 3000 2000 2550 3300 2 3400 2 (by norm_num) (by norm_num) (by norm_num)
    (pytrunc_eq (by push_cast; norm_num) (by push_cast; norm_num) (by norm_num))
    (ceil_eval (by push_cast; norm_num) (by push_cast; norm_num))
  simpa using h

/-- Closed form of the height-hint-only branch of `calculate_sheet_counts`. -/
lemma calc_height (img_w img_h t_w t_h m fw sw : ℤ) (hm : m ≠ 0) (hh : img_h ≠ 0)
    (hw : t_w ≠ 0)
    (hfw : pytrunc ((img_w : ℚ) / (img_h : ℚ) * ((t_h : ℚ) * (m : ℚ))) = fw)
    (hsw : ⌈(fw : ℚ) / (t_w : ℚ)⌉ = sw) :
    calculate_sheet_counts img_w img_h t_w t_h none (some m) = .ok ⟨sw, m, fw, t_h * m⟩ := by
  simp [calculate_sheet_counts, truthy, hm, hh, hw]
  constructor
  · rw [hfw]; exact hsw
  · exact hfw

/-- The height-hint-only twin of the scenario: source 3000×2000, tile
2550×3300, two sheets tall, width unset. -/
lemma plan_high_3000 :
    calculate_sheet_counts 3000 2000 2550 3300 none (some 2) = .ok ⟨4, 2, 9900, 6600⟩ := by
  have h := calc_height 3000 2000 2550 3300 2 9900 4 (by norm_num) (by norm_num) (by norm_num)
    (pytrunc_eq (by push_cast; norm_num) (by push_cast; norm_num) (by norm_num))
    (ceil_eval (by push_cast; norm_num) (by push_cast; norm_num))
  simpa using h

/-- The width-hint plan of a very wide source: trunc(1/10000 × 100) = 0,
so the planner yields zero sheets high and a zero-height canvas. -/
lemma plan_wide_10000 :
    calculate_sheet_counts 10000 1 100 100 (some 1) none = .ok ⟨1, 0, 100, 0⟩ := by
  have h := calc_width 10000 1 100 100 1 0 0 (by norm_num) (by norm_num) (by norm_num)
    (pytrunc_eq (by push_cast; norm_num) (by push_cast; norm_num) (by norm_num))
    (ceil_eval (by push_cast; norm_num) (by push_cast; norm_num))
  simpa using h

/-- Tile dimensions of a 1×1in page, no margin, 100dpi. -/
lemma tileDims_one_inch : tileDims 1 1 0 100 = (100, 100) := by
  simp only [tileDims, Prod.mk.injEq]
  exact ⟨pytrunc_eq (by norm_num) (by norm_num) (by norm_num),
         pytrunc_eq (by norm_num) (by norm_num) (by norm_num)⟩

/-- Tile dimensions of an 8.5×11in page with a 4.25in margin at 300dpi:
the tile width degenerates to 0. -/
lemma tileDims_degenerate : tileDims (17/2) 11 (17/4) 300 = (0, 750) := by
  simp only [tileDims, Prod.mk.injEq]
  exact ⟨pytrunc_eq (by norm_num) (by norm_num) (by norm_num),
         pytrunc_eq (by norm_num) (by norm_num) (by norm_num)⟩

/-- A run whose plan has a non-positive canvas dimension stops at the
resize call with Pillow's `ValueError`, after the image was opened and
before any tile or page is produced. -/
lemma mainModel_resize_error (img_w img_h : ℤ) (page_w page_h margin : ℚ) (dpi : ℤ)
    (wide high : Option ℤ) (p : LayoutPlan)
    (hp : calculate_sheet_counts img_w img_h (tileDims page_w page_h margin dpi).1
      (tileDims page_w page_h margin dpi).2 wide high = .ok p)
    (hdeg : p.fullW ≤ 0 ∨ p.fullH ≤ 0) :
    mainModel img_w img_h page_w page_h margin dpi wide high =
      ⟨[Event.imageOpen], .error .valueError⟩ := by
  rcases hdeg with h | h <;> simp [mainModel, hp, h]

/-- Every crop box built by `crop_tiles` has exactly the nominal tile
dimensions under Pillow's crop semantics. -/
lemma crop_tiles_mem_dims (sheets_w sheets_h tile_w tile_h : ℤ) (b : Box)
    (hb : b ∈ crop_tiles sheets_w sheets_h tile_w tile_h) :
    cropWidth b = tile_w ∧ cropHeight b = tile_h := by
  simp only [crop_tiles, List.mem_flatMap, List.mem_map, List.mem_range] at hb
  obtain ⟨r, _, c, _, rfl⟩ := hb
  constructor
  · simp [tileBox, cropWidth]
  · simp [tileBox, cropHeight]

lemma sum_map_const_range (k n : ℕ) :
    (List.map (fun _ : ℕ => k) (List.range n)).sum = n * k := by
  induction n with
  | zero => simp
  | succ n ih =>
      rw [List.range_succ]
      simp only [List.map_append, List.sum_append, List.map_cons, List.map_nil,
        List.sum_cons, List.sum_nil, ih]
      ring

lemma crop_tiles_length (sheets_w sheets_h tile_w tile_h : ℤ) :
    (crop_tiles sheets_w sheets_h tile_w tile_h).length =
      sheets_w.toNat * sheets_h.toNat := by
  simp only [crop_tiles, List.length_flatMap, Function.comp_def, List.length_map]
  rw [sum_map_const_range, Nat.mul_comm]
  simp [List.length_range]

/-! ## Claim theorems -/

/-- C3: with both grid hints set to positive values, the planner returns
`fullCanvasWidthPx = tileWidthPx × sheetsWide` and
`fullCanvasHeightPx = tileHeightPx × sheetsHigh`, exactly as products of
those integers. -/
theorem C3_theorem (img_w img_h t_w t_h n m : ℤ) (hn : 0 < n) (hm : 0 < m) :
    calculate_sheet_counts img_w img_h t_w t_h (some n) (some m) =
      .ok ⟨n, m, t_w * n, t_h * m⟩ :=
  calc_both img_w img_h t_w t_h n m (ne_of_gt hn) (ne_of_gt hm)

/-- Witness for C3 at a concrete input. -/
theorem C3_witness :
    calculate_sheet_counts 3000 2000 2550 3300 (some 2) (some 3) =
      .ok ⟨2, 3, 2550 * 2, 3300 * 3⟩ :=
  C3_theorem 3000 2000 2550 3300 2 3 (by norm_num) (by norm_num)

/-- C4: on the concrete input imgW=3000, imgH=2000, tileW=2550, tileH=3300,
sheetsWideHint=2, sheetsHighHint unset, the planner returns exactly
sheetsWide=2, sheetsHigh=2, fullW=5100, fullH=3400. -/
theorem C4_theorem :
    calculate_sheet_counts 3000 2000 2550 3300 (some 2) none =
      .ok ⟨2, 2, 5100, 3400⟩ :=
  plan_3000_2000

/-- C5: the tiler produces exactly sheetsWide × sheetsHigh tiles; they are
the row-major enumeration of all `(row, col)` pairs with
`0 ≤ row < sheetsHigh` and `0 ≤ col < sheetsWide`, each pair exactly once
(`rowMajorPairs` lists row 0 col 0, row 0 col 1, … by construction). -/
theorem C5_theorem (sheets_w sheets_h tile_w tile_h : ℤ) :
    crop_tiles sheets_w sheets_h tile_w tile_h =
      (rowMajorPairs sheets_h.toNat sheets_w.toNat).map
        (fun rc => tileBox tile_w tile_h rc.1 rc.2) ∧
    (crop_tiles sheets_w sheets_h tile_w tile_h).length =
      sheets_w.toNat * sheets_h.toNat ∧
    (rowMajorPairs sheets_h.toNat sheets_w.toNat).Nodup ∧
    ∀ r c : ℕ, ((r, c) ∈ rowMajorPairs sheets_h.toNat sheets_w.toNat ↔
      r < sheets_h.toNat ∧ c < sheets_w.toNat) := by
  refine ⟨?_, crop_tiles_length sheets_w sheets_h tile_w tile_h, ?_, ?_⟩
  · simp [crop_tiles, rowMajorPairs, List.map_flatMap, List.map_map, Function.comp_def]
  · rw [rowMajorPairs, List.nodup_flatMap]
    constructor
    · intro r _
      exact (List.nodup_range _).map (fun a b hab => by simpa using hab)
    · apply List.Pairwise.imp ?_ (List.pairwise_lt_range _)
      intro a b hab
      simp only [Function.onFun, List.disjoint_left, List.mem_map, List.mem_range]
      rintro x ⟨c, _, rfl⟩ ⟨c2, _, hx⟩
      exact absurd (congrArg Prod.fst hx) (by simp only []; omega)
  · intro r c
    simp only [rowMajorPairs, List.mem_flatMap, List.mem_map, List.mem_range,
      Prod.mk.injEq]
    constructor
    · rintro ⟨a, ha, b, hb, rfl, rfl⟩
      exact ⟨ha, hb⟩
    · rintro ⟨hr, hc⟩
      exact ⟨r, hr, c, hc, rfl, rfl⟩

/-- C7 counterexample: a page/margin combination giving tile width 0
(8.5×11in page, 4.25in margin, 300dpi) is not rejected with
`ConfigurationError`: the planner still returns a plan, and the run then
dies at the resize call with Pillow's `ValueError`, a different error. -/
theorem C7_counterexample :
    tileDims (17/2) 11 (17/4) 300 = (0, 750) ∧
    calculate_sheet_counts 100 100 0 750 (some 3) (some 2) = .ok ⟨3, 2, 0, 1500⟩ ∧
    mainModel 100 100 (17/2) 11 (17/4) 300 (some 3) (some 2) =
      ⟨[Event.imageOpen], .error .valueError⟩ ∧
    Err.valueError ≠ Err.configuration := by
  have hplan : calculate_sheet_counts 100 100 0 750 (some 3) (some 2) =
      .ok ⟨3, 2, 0, 1500⟩ := by
    simpa using calc_both 100 100 0 750 3 2 (by norm_num) (by norm_num)
  refine ⟨tileDims_degenerate, hplan, ?_, by decide⟩
  exact mainModel_resize_error 100 100 (17/2) 11 (17/4) 300 (some 3) (some 2)
    ⟨3, 2, 0, 1500⟩ (by rw [tileDims_degenerate]; exact hplan) (Or.inl (by norm_num))

/-- C7 amended: the code performs no tile-dimension validation, so no
`ConfigurationError` is raised for `tileW ≤ 0` or `tileH ≤ 0`.  With both
hints set the planner still returns a (degenerate) plan; the run then
fails at the resize call with Pillow's `ValueError`, because the planned
canvas inherits a non-positive dimension. -/
theorem C7_theorem (img_w img_h : ℤ) (page_w page_h margin : ℚ) (dpi : ℤ)
    (n m : ℤ) (hn : 0 < n) (hm : 0 < m)
    (hdeg : (tileDims page_w page_h margin dpi).1 ≤ 0 ∨
      (tileDims page_w page_h margin dpi).2 ≤ 0) :
    calculate_sheet_counts img_w img_h (tileDims page_w page_h margin dpi).1
      (tileDims page_w page_h margin dpi).2 (some n) (some m) =
      .ok ⟨n, m, (tileDims page_w page_h margin dpi).1 * n,
           (tileDims page_w page_h margin dpi).2 * m⟩ ∧
    mainModel img_w img_h page_w page_h margin dpi (some n) (some m) =
      ⟨[Event.imageOpen], .error .valueError⟩ := by
  have hplan := calc_both img_w img_h (tileDims page_w page_h margin dpi).1
    (tileDims page_w page_h margin dpi).2 n m (ne_of_gt hn) (ne_of_gt hm)
  refine ⟨hplan, mainModel_resize_error _ _ _ _ _ _ _ _ _ hplan ?_⟩
  rcases hdeg with h | h
  · refine Or.inl ?_
    have := mul_le_mul_of_nonneg_right h hn.le
    simpa using this
  · refine Or.inr ?_
    have := mul_le_mul_of_nonneg_right h hm.le
    simpa using this

/-- Witness for C7 at the concrete degenerate configuration. -/
theorem C7_witness :
    calculate_sheet_counts 100 100 0 750 (some 3) (some 2) =
      .ok ⟨3, 2, 0 * 3, 750 * 2⟩ ∧
    mainModel 100 100 (17/2) 11 (17/4) 300 (some 3) (some 2) =
      ⟨[Event.imageOpen], .error .valueError⟩ := by
  have h := C7_theorem 100 100 (17/2) 11 (17/4) 300 3 2 (by norm_num) (by norm_num)
    (Or.inl (by simp [tileDims_degenerate]))
  simpa [tileDims_degenerate] using h

/-- C9: every tile raster produced by the tiler has dimensions exactly
tileWidthPx × tileHeightPx, for every plan and every position including
the final row and column (Pillow's crop always returns the requested box
size, padding any out-of-bounds region). -/
theorem C9_theorem (sheets_w sheets_h tile_w tile_h : ℤ) (b : Box)
    (hb : b ∈ crop_tiles sheets_w sheets_h tile_w tile_h) :
    cropWidth b = tile_w ∧ cropHeight b = tile_h :=
  crop_tiles_mem_dims sheets_w sheets_h tile_w tile_h b hb

/-- Witness for C9: the final (bottom-right) tile of the 2×2 scenario plan
has exactly the nominal 2550×3300 size. -/
theorem C9_witness :
    cropWidth ⟨2550, 3300, 5100, 6600⟩ = 2550 ∧
    cropHeight ⟨2550, 3300, 5100, 6600⟩ = 3300 :=
  C9_theorem 2 2 2550 3300 ⟨2550, 3300, 5100, 6600⟩ (by decide)

/-- C1 counterexample: on imgW=3, imgH=2, tileW=4, tileH=100, sheets-wide
hint 1, the code returns fullH = 2 (truncation of 8/3), while rounding
8/3 to the nearest integer gives 3: the aspect-derived dimension is
truncated, not rounded to nearest. -/
theorem C1_counterexample :
    calculate_sheet_counts 3 2 4 100 (some 1) none = .ok ⟨1, 1, 4, 2⟩ ∧
    round ((2 : ℚ) / (3 : ℚ) * (4 : ℚ)) = 3 ∧ (2 : ℤ) ≠ (3 : ℤ) := by
  refine ⟨?_, ?_, by decide⟩
  · have h := calc_width 3 2 4 100 1 2 1 (by norm_num) (by norm_num) (by norm_num)
      (pytrunc_eq (by push_cast; norm_num) (by push_cast; norm_num) (by norm_num))
      (ceil_eval (by push_cast; norm_num) (by push_cast; norm_num))
    simpa using h
  · rw [round_eq]
    exact Int.floor_eq_iff.mpr ⟨by norm_num, by norm_num⟩

/-- C1 amended: with a positive sheets-wide hint and no sheets-tall hint,
the planner returns fullW = tileW × hint, fullH equal to
imgH / imgW × fullW truncated toward zero (integer division, NOT rounded
to nearest), and sheetsHigh = ceil(fullH / tileH), characterized as the
least integer k with fullH ≤ k × tileH. -/
theorem C1_theorem (img_w img_h t_w t_h n : ℤ) (hw : 0 < img_w) (hh : 0 ≤ img_h)
    (htw : 0 ≤ t_w) (hth : 0 < t_h) (hn : 0 < n) :
    ∃ p : LayoutPlan,
      calculate_sheet_counts img_w img_h t_w t_h (some n) none = .ok p ∧
      p.sheetsWide = n ∧
      p.fullW = t_w * n ∧
      p.fullH = img_h * (t_w * n) / img_w ∧
      p.fullH ≤ p.sheetsHigh * t_h ∧
      ∀ k : ℤ, p.fullH ≤ k * t_h → p.sheetsHigh ≤ k := by
  have hc : ((t_w * n : ℤ) : ℚ) = (t_w : ℚ) * (n : ℚ) := by push_cast; ring
  have hfh : pytrunc ((img_h : ℚ) / (img_w : ℚ) * ((t_w : ℚ) * (n : ℚ))) =
      img_h * (t_w * n) / img_w := by
    rw [← hc]
    exact pytrunc_div_mul_eq_ediv img_h img_w (t_w * n) hw hh (mul_nonneg htw hn.le)
  refine ⟨⟨n, ⌈((img_h * (t_w * n) / img_w : ℤ) : ℚ) / (t_h : ℚ)⌉, t_w * n,
      img_h * (t_w * n) / img_w⟩, ?_, rfl, rfl, rfl, ?_, ?_⟩
  · exact calc_width img_w img_h t_w t_h n _ _ (ne_of_gt hn) (ne_of_gt hw)
      (ne_of_gt hth) hfh rfl
  · exact le_ceil_mul _ t_h hth
  · intro k hk
    exact ceil_le_of_le_mul _ t_h k hth hk

/-- Witness for C1 at the specification's scenario input. -/
theorem C1_witness :
    ∃ p : LayoutPlan,
      calculate_sheet_counts 3000 2000 2550 3300 (some 2) none = .ok p ∧
      p.sheetsWide = 2 ∧
      p.fullW = 2550 * 2 ∧
      p.fullH = 2000 * (2550 * 2) / 3000 ∧
      p.fullH ≤ p.sheetsHigh * 3300 ∧
      ∀ k : ℤ, p.fullH ≤ k * 3300 → p.sheetsHigh ≤ k :=
  C1_theorem 3000 2000 2550 3300 2 (by norm_num) (by norm_num) (by norm_num)
    (by norm_num) (by norm_num)

/-- C2 counterexample: the plan of the width-hint-only scenario has
fullCanvasHeightPx = 3400 while sheetsHigh × tileHeightPx = 2 × 3300 =
6600: the height half of the invariant fails. -/
theorem C2_counterexample :
    calculate_sheet_counts 3000 2000 2550 3300 (some 2) none = .ok ⟨2, 2, 5100, 3400⟩ ∧
    ¬ ((3400 : ℤ) = 2 * 3300) :=
  ⟨plan_3000_2000, by decide⟩

/-- C2 amended: for every plan produced by the planner (positive tile
dimensions), the hinted dimension satisfies the invariant exactly, and the
derived dimension satisfies only `full ≤ sheets × tile`; both equalities
hold exactly only when the respective hint was truthy (in particular when
both hints are set). -/
theorem C2_theorem (img_w img_h t_w t_h : ℤ) (wide high : Option ℤ) (p : LayoutPlan)
    (htw : 0 < t_w) (hth : 0 < t_h)
    (hp : calculate_sheet_counts img_w img_h t_w t_h wide high = .ok p) :
    (p.fullW ≤ p.sheetsWide * t_w ∧ p.fullH ≤ p.sheetsHigh * t_h) ∧
    (truthy wide = true → p.fullW = p.sheetsWide * t_w) ∧
    (truthy high = true → p.fullH = p.sheetsHigh * t_h) := by
  cases hw : truthy wide <;> cases hh2 : truthy high
  · -- neither hint truthy
    rw [calc_neither img_w img_h t_w t_h wide high hw hh2] at hp
    exact absurd hp (by simp)
  · -- height hint only
    simp only [calculate_sheet_counts, hw, hh2, Bool.not_true, Bool.not_false,
      Bool.and_true, Bool.and_false, Bool.false_and, Bool.true_and,
      Bool.false_eq_true, if_false, if_true] at hp
    split_ifs at hp with h1 h2
    all_goals simp only [Except.ok.injEq, reduceCtorEq] at hp
    subst hp
    exact ⟨⟨le_ceil_mul _ t_w htw, le_of_eq (mul_comm t_h _)⟩,
      fun hcontra => absurd hcontra (by simp),
      fun _ => mul_comm t_h _⟩
  · -- width hint only
    simp only [calculate_sheet_counts, hw, hh2, Bool.not_false, Bool.and_true,
      Bool.false_and, Bool.and_false, Bool.false_eq_true, if_true, if_false,
      Bool.true_and] at hp
    split_ifs at hp with h1 h2
    all_goals simp only [Except.ok.injEq, reduceCtorEq] at hp
    subst hp
    exact ⟨⟨le_of_eq (mul_comm t_w _), le_ceil_mul _ t_h hth⟩,
      fun _ => mul_comm t_w _,
      fun hcontra => absurd hcontra (by simp)⟩
  · -- both hints truthy
    simp only [calculate_sheet_counts, hw, hh2, Bool.not_true, Bool.and_false,
      Bool.false_eq_true, if_false, Bool.and_true, Bool.false_and, if_true,
      Bool.true_and, Except.ok.injEq] at hp
    subst hp
    exact ⟨⟨le_of_eq (mul_comm t_w _), le_of_eq (mul_comm t_h _)⟩,
      fun _ => mul_comm t_w _, fun _ => mul_comm t_h _⟩

/-- Witness for C2 at the scenario plan. -/
theorem C2_witness :
    (((5100 : ℤ) ≤ 2 * 2550 ∧ (3400 : ℤ) ≤ 2 * 3300) ∧
      (truthy (some 2) = true → (5100 : ℤ) = 2 * 2550) ∧
      (truthy none = true → (3400 : ℤ) = 2 * 3300)) := by
  have h := C2_theorem 3000 2000 2550 3300 (some 2) none ⟨2, 2, 5100, 3400⟩
    (by norm_num) (by norm_num) plan_3000_2000
  simpa using h

/-- C6 counterexample: with both grid hints absent, the run does raise the
configuration error, but the event trace shows the source image was opened
first — the error is NOT raised before image I/O. -/
theorem C6_counterexample :
    (mainModel 3000 2000 (17/2) 11 0 300 none none).outcome = .error .configuration ∧
    Event.imageOpen ∈ (mainModel 3000 2000 (17/2) 11 0 300 none none).events := by
  have h := calc_neither 3000 2000 (tileDims (17/2) 11 0 300).1
    (tileDims (17/2) 11 0 300).2 none none rfl rfl
  constructor <;> simp [mainModel, h]

/-- C6 amended: when both grid hints are absent or zero the run raises
`ConfigurationError`, but only AFTER the source image has been opened:
`main` opens the image at its first line, so the trace of every failing run
is exactly `[imageOpen]`. -/
theorem C6_theorem (img_w img_h : ℤ) (page_w page_h margin : ℚ) (dpi : ℤ)
    (wide high : Option ℤ) (hw : truthy wide = false) (hh : truthy high = false) :
    (mainModel img_w img_h page_w page_h margin dpi wide high).outcome =
      .error .configuration ∧
    (mainModel img_w img_h page_w page_h margin dpi wide high).events =
      [Event.imageOpen] := by
  have h := calc_neither img_w img_h (tileDims page_w page_h margin dpi).1
    (tileDims page_w page_h margin dpi).2 wide high hw hh
  constructor <;> simp [mainModel, h]

/-- Witness for C6 at a concrete configuration (hints `none` and `some 0`). -/
theorem C6_witness :
    (mainModel 100 200 (17/2) 11 0 300 none (some 0)).outcome =
      .error .configuration ∧
    (mainModel 100 200 (17/2) 11 0 300 none (some 0)).events = [Event.imageOpen] :=
  C6_theorem 100 200 (17/2) 11 0 300 none (some 0) rfl rfl

/-- C8 counterexample: in the width-hint-only scenario plan (fullH = 3400,
tileH = 3300, sheetsHigh = 2) the final-row crop box is
(0, 3300, 2550, 6600): its lower edge 6600 extends past the canvas height
3400 and is not clamped, and the resulting tile height is the nominal 3300,
not the 100 remaining pixels. -/
theorem C8_counterexample :
    calculate_sheet_counts 3000 2000 2550 3300 (some 2) none = .ok ⟨2, 2, 5100, 3400⟩ ∧
    (crop_tiles 2 2 2550 3300)[2]? = some ⟨0, 3300, 2550, 6600⟩ ∧
    ¬ ((6600 : ℤ) ≤ 3400) ∧
    cropHeight ⟨0, 3300, 2550, 6600⟩ = 3300 ∧
    ¬ (cropHeight ⟨0, 3300, 2550, 6600⟩ < 3300) :=
  ⟨plan_3000_2000, by decide, by decide, by decide, by decide⟩

/-- C8 amended: for a single-hint plan whose aspect-derived canvas
dimension is not an exact multiple of the tile size, the final row
(width-hint case) or final column (height-hint case) of crop rectangles
extends past the canvas (full < sheets × tile, the far edge of the final
row/column) and is NOT clamped: every tile, the final row/column included,
keeps the nominal tileW × tileH dimensions (Pillow pads the out-of-bounds
region with blank pixels). -/
theorem C8_theorem (img_w img_h t_w t_h k : ℤ) (hiw : 0 < img_w) (hih : 0 < img_h)
    (htw : 0 < t_w) (hth : 0 < t_h) (hk : 0 < k) :
    (∀ p : LayoutPlan,
      calculate_sheet_counts img_w img_h t_w t_h (some k) none = .ok p →
      ¬ (t_h ∣ p.fullH) →
      1 ≤ p.sheetsHigh ∧ p.fullH < p.sheetsHigh * t_h ∧
      ∀ b ∈ crop_tiles p.sheetsWide p.sheetsHigh t_w t_h,
        cropWidth b = t_w ∧ cropHeight b = t_h) ∧
    (∀ p : LayoutPlan,
      calculate_sheet_counts img_w img_h t_w t_h none (some k) = .ok p →
      ¬ (t_w ∣ p.fullW) →
      1 ≤ p.sheetsWide ∧ p.fullW < p.sheetsWide * t_w ∧
      ∀ b ∈ crop_tiles p.sheetsWide p.sheetsHigh t_w t_h,
        cropWidth b = t_w ∧ cropHeight b = t_h) := by
  constructor
  · intro p hp hnd
    have hc : ((t_w * k : ℤ) : ℚ) = (t_w : ℚ) * (k : ℚ) := by push_cast; ring
    have hfh : pytrunc ((img_h : ℚ) / (img_w : ℚ) * ((t_w : ℚ) * (k : ℚ))) =
        img_h * (t_w * k) / img_w := by
      rw [← hc]
      exact pytrunc_div_mul_eq_ediv img_h img_w (t_w * k) hiw hih.le
        (mul_nonneg htw.le hk.le)
    have hcw := calc_width img_w img_h t_w t_h k _ _ (ne_of_gt hk) (ne_of_gt hiw)
      (ne_of_gt hth) hfh rfl
    rw [hcw, Except.ok.injEq] at hp
    subst hp
    set fh := img_h * (t_w * k) / img_w with hfh_def
    have hfh0 : 0 ≤ fh :=
      Int.ediv_nonneg (mul_nonneg hih.le (mul_nonneg htw.le hk.le)) hiw.le
    have hfhne : fh ≠ 0 := fun h0 => hnd (by simp [h0])
    have hfhpos : 0 < fh := lt_of_le_of_ne hfh0 (Ne.symm hfhne)
    have hle : fh ≤ ⌈(fh : ℚ) / (t_h : ℚ)⌉ * t_h := le_ceil_mul fh t_h hth
    have hne : fh ≠ ⌈(fh : ℚ) / (t_h : ℚ)⌉ * t_h := by
      intro heq
      exact hnd ⟨⌈(fh : ℚ) / (t_h : ℚ)⌉, heq.trans (mul_comm _ _)⟩
    refine ⟨?_, lt_of_le_of_ne hle hne,
      fun b hb => crop_tiles_mem_dims _ _ _ _ b hb⟩
    by_contra hlt
    push_neg at hlt
    have hlt' : ⌈(fh : ℚ) / (t_h : ℚ)⌉ < 1 := hlt
    have h0 : ⌈(fh : ℚ) / (t_h : ℚ)⌉ ≤ 0 := by omega
    have h1 : ⌈(fh : ℚ) / (t_h : ℚ)⌉ * t_h ≤ 0 * t_h :=
      mul_le_mul_of_nonneg_right h0 hth.le
    rw [zero_mul] at h1
    linarith
  · intro p hp hnd
    have hc : ((t_h * k : ℤ) : ℚ) = (t_h : ℚ) * (k : ℚ) := by push_cast; ring
    have hfw : pytrunc ((img_w : ℚ) / (img_h : ℚ) * ((t_h : ℚ) * (k : ℚ))) =
        img_w * (t_h * k) / img_h := by
      rw [← hc]
      exact pytrunc_div_mul_eq_ediv img_w img_h (t_h * k) hih hiw.le
        (mul_nonneg hth.le hk.le)
    have hcw := calc_height img_w img_h t_w t_h k _ _ (ne_of_gt hk) (ne_of_gt hih)
      (ne_of_gt htw) hfw rfl
    rw [hcw, Except.ok.injEq] at hp
    subst hp
    set fw := img_w * (t_h * k) / img_h with hfw_def
    have hfw0 : 0 ≤ fw :=
      Int.ediv_nonneg (mul_nonneg hiw.le (mul_nonneg hth.le hk.le)) hih.le
    have hfwne : fw ≠ 0 := fun h0 => hnd (by simp [h0])
    have hfwpos : 0 < fw := lt_of_le_of_ne hfw0 (Ne.symm hfwne)
    have hle : fw ≤ ⌈(fw : ℚ) / (t_w : ℚ)⌉ * t_w := le_ceil_mul fw t_w htw
    have hne : fw ≠ ⌈(fw : ℚ) / (t_w : ℚ)⌉ * t_w := by
      intro heq
      exact hnd ⟨⌈(fw : ℚ) / (t_w : ℚ)⌉, heq.trans (mul_comm _ _)⟩
    refine ⟨?_, lt_of_le_of_ne hle hne,
      fun b hb => crop_tiles_mem_dims _ _ _ _ b hb⟩
    by_contra hlt
    push_neg at hlt
    have hlt' : ⌈(fw : ℚ) / (t_w : ℚ)⌉ < 1 := hlt
    have h0 : ⌈(fw : ℚ) / (t_w : ℚ)⌉ ≤ 0 := by omega
    have h1 : ⌈(fw : ℚ) / (t_w : ℚ)⌉ * t_w ≤ 0 * t_w :=
      mul_le_mul_of_nonneg_right h0 htw.le
    rw [zero_mul] at h1
    linarith

/-- Witness for C8 on both orientations of the scenario: width-hint plan
(2, 2, 5100, 3400) with 3300 ∤ 3400, and height-hint plan (4, 2, 9900,
6600) with 2550 ∤ 9900. -/
theorem C8_witness :
    ((1 : ℤ) ≤ 2 ∧ (3400 : ℤ) < 2 * 3300 ∧
      ∀ b ∈ crop_tiles 2 2 2550 3300, cropWidth b = 2550 ∧ cropHeight b = 3300) ∧
    ((1 : ℤ) ≤ 4 ∧ (9900 : ℤ) < 4 * 2550 ∧
      ∀ b ∈ crop_tiles 4 2 2550 3300, cropWidth b = 2550 ∧ cropHeight b = 3300) := by
  have h := C8_theorem 3000 2000 2550 3300 2 (by norm_num) (by norm_num) (by norm_num)
    (by norm_num) (by norm_num)
  constructor
  · simpa using h.1 ⟨2, 2, 5100, 3400⟩ plan_3000_2000 (by decide)
  · simpa using h.2 ⟨4, 2, 9900, 6600⟩ plan_high_3000 (by decide)

/-- C10 counterexample: on the very wide source (10000×1, tile 100×100,
sheets-wide hint 1) the planner does return sheetsHigh = 0 and fullH = 0
without error and the tiler would yield no tiles, but the run does NOT
emit a zero-page document: resizing to height 0 raises Pillow's
`ValueError`, so the run dies after opening the image, no page emitted. -/
theorem C10_counterexample :
    calculate_sheet_counts 10000 1 100 100 (some 1) none = .ok ⟨1, 0, 100, 0⟩ ∧
    crop_tiles 1 0 100 100 = [] ∧
    mainModel 10000 1 1 1 0 100 (some 1) none =
      ⟨[Event.imageOpen], .error .valueError⟩ := by
  refine ⟨plan_wide_10000, by decide, ?_⟩
  exact mainModel_resize_error 10000 1 1 1 0 100 (some 1) none ⟨1, 0, 100, 0⟩
    (by rw [tileDims_one_inch]; exact plan_wide_10000) (Or.inr (by norm_num))

/-- C10 amended: whenever the plan has a non-positive canvas dimension (in
particular a truncated aspect-derived height of 0), the planner itself
raises no error, but the run never reaches the tiler or the page sink: the
resize call rejects the degenerate size with `ValueError` and the run ends
with only the image-open side effect, emitting no document at all. -/
theorem C10_theorem (img_w img_h : ℤ) (page_w page_h margin : ℚ) (dpi : ℤ)
    (wide high : Option ℤ) (p : LayoutPlan)
    (hp : calculate_sheet_counts img_w img_h (tileDims page_w page_h margin dpi).1
      (tileDims page_w page_h margin dpi).2 wide high = .ok p)
    (hdeg : p.fullW ≤ 0 ∨ p.fullH ≤ 0) :
    mainModel img_w img_h page_w page_h margin dpi wide high =
      ⟨[Event.imageOpen], .error .valueError⟩ :=
  mainModel_resize_error img_w img_h page_w page_h margin dpi wide high p hp hdeg

/-- Witness for C10 at the wide-source input whose plan is (1, 0, 100, 0). -/
theorem C10_witness :
    mainModel 10000 1 1 1 0 100 (some 1) none =
      ⟨[Event.imageOpen], .error .valueError⟩ :=
  C10_theorem 10000 1 1 1 0 100 (some 1) none ⟨1, 0, 100, 0⟩
    (by rw [tileDims_one_inch]; exact plan_wide_10000) (Or.inr (by norm_num))

end ImageTiler
